import Mathlib

/-!
Verification of `src/python_examples/mc_nvt_hs.py` (Monte Carlo, NVT
ensemble, hard spheres) against its natural-language specification.

The program state is shallowly embedded: 3-D coordinates become rational
triples, NumPy array operations become list operations, and the random
draws consumed by the trial-move sampler are passed in explicitly as
arguments. The helper modules `mc_hs_fast_module` / `mc_hs_slow_module`
(overlap tests), `maths_module` (random_translate_vector) and the I/O and
averaging collaborators are not part of the repository source; where a
claim depends on them they are modelled from the spec, as marked in the
doc comments.
-/

namespace MCNvtHs

/-- A 3-D point or displacement with rational coordinates
(embedding of a NumPy length-3 float vector). -/
structure Vec3 where
  x : ℚ
  y : ℚ
  z : ℚ
deriving DecidableEq, Repr

instance : Inhabited Vec3 := ⟨⟨0, 0, 0⟩⟩

/-- `np.rint` on one coordinate: round to the nearest integer,
rounding exact halves to the nearest even integer (IEEE / NumPy
default rounding, documented behaviour of `np.rint`). -/
def rintZ (q : ℚ) : ℤ :=
  if Int.fract q < 1/2 then ⌊q⌋
  else if 1/2 < Int.fract q then ⌊q⌋ + 1
  else if Even ⌊q⌋ then ⌊q⌋ else ⌊q⌋ + 1

/-- One coordinate of `t - np.rint(t)`: the periodic wrap used at load
time (line 122), on trial moves (line 141) and inside the minimum-image
convention. -/
def wrap (q : ℚ) : ℚ := q - (rintZ q : ℚ)

/-- Componentwise periodic wrap of a vector, `v - np.rint(v)`. -/
def wrapV (v : Vec3) : Vec3 := ⟨wrap v.x, wrap v.y, wrap v.z⟩

/-- Componentwise difference `a - b`. -/
def vsub (a b : Vec3) : Vec3 := ⟨a.x - b.x, a.y - b.y, a.z - b.z⟩

/-- Componentwise scaling `c * v` (NumPy `r * box` and `r / box` both
reduce to this). -/
def smul (c : ℚ) (v : Vec3) : Vec3 := ⟨c * v.x, c * v.y, c * v.z⟩

/-- Modelled from the spec: `minimumImageDelta` of §4.1 (GeometryKernel);
the modules `mc_hs_fast_module` / `mc_hs_slow_module` holding this code
are not in src. Componentwise difference, each component shifted to the
nearest representative by subtracting its rounded value. -/
def minimumImageDelta (a b : Vec3) : Vec3 := wrapV (vsub a b)

/-- Modelled from the spec: `squaredDistance` of §4.1, the squared
magnitude of `minimumImageDelta`. -/
def squaredDistance (a b : Vec3) : ℚ :=
  let d := minimumImageDelta a b
  d.x ^ 2 + d.y ^ 2 + d.z ^ 2

/-- The hard-sphere pair test of §4.2: the pair overlaps when
`squaredDistance * box² < 1` (diameter σ = 1 in simulation units). -/
def overlapPair (box : ℚ) (a b : Vec3) : Bool :=
  squaredDistance a b * box ^ 2 < 1

/-- Modelled from the spec: `overlapsWithOne` of §4.2
(`overlap_1 ( ri, box, rj )` in the source imports): tests the single
position `ri` against every position of `rs`. -/
def overlap_1 (ri : Vec3) (box : ℚ) (rs : List Vec3) : Bool :=
  rs.any (fun rj => overlapPair box ri rj)

/-- Modelled from the spec: `overlapsAny` of §4.2
(`overlap ( box, r )` in the source imports): tests all unordered pairs,
enumerated as each position against all later ones. -/
def overlap (box : ℚ) : List Vec3 → Bool
  | [] => false
  | p :: ps => overlap_1 p box ps || overlap box ps

/-- Modelled from the spec: `countOverlaps` of §4.2
(`n_overlap ( box, r )` in the source imports): the number of violating
unordered pairs. -/
def n_overlap (box : ℚ) : List Vec3 → ℕ
  | [] => 0
  | p :: ps => ps.countP (fun rj => overlapPair box p rj) + n_overlap box ps

/-- Modelled from the spec: §4.3 MoveSampler / `random_translate_vector`
of `maths_module` (not in src): `position + maxStep * (2u - 1)`
independently per axis, with each component of `u` a uniform draw on
[0,1). The random draw is passed in explicitly. -/
def random_translate_vector (maxStep : ℚ) (pos u : Vec3) : Vec3 :=
  ⟨pos.x + maxStep * (2 * u.x - 1),
   pos.y + maxStep * (2 * u.y - 1),
   pos.z + maxStep * (2 * u.z - 1)⟩

/-- One observable record: embedding of `VariableType` of
`averages_module` restricted to the two attributes the claims use. -/
structure VariableType where
  nam : String
  val : ℚ
deriving DecidableEq, Repr

instance : Inhabited VariableType := ⟨⟨"", 0⟩⟩

/-- The global state read by `calculate` (lines 18-21 of the source:
`m_ratio`, `eps_box`, `box`, `n`, `r` are taken from the calling
program). -/
structure CalcState where
  n : ℕ
  box : ℚ
  eps_box : ℚ
  r : List Vec3
  m_ratio : ℚ
deriving DecidableEq, Repr

/-- Embedding of `calculate ( string )` (lines 4-49): computes the
virial from `n_overlap` on the contracted box, the density, the move
ratio (the sentinel 0 when a report label is supplied), and the pressure
`rho + vir/vol`; returns the two variables in order. -/
def calculate (st : CalcState) (string : Option String) : List VariableType :=
  let vir := (n_overlap (st.box / (1 + st.eps_box)) st.r : ℚ) / (3 * st.eps_box)
  let vol := st.box ^ 3
  let rho := (st.n : ℚ) / vol
  let m_r : VariableType :=
    match string with
    | none => ⟨"Move ratio", st.m_ratio⟩
    | some _ => ⟨"Move ratio", 0⟩
  let p_f : VariableType := ⟨"P", rho + vir / vol⟩
  [m_r, p_f]

/-- The reported pressure: the `val` of the second variable returned by
`calculate` (the one named "P"). -/
def pressureOf (vs : List VariableType) : ℚ := (vs.getD 1 default).val

/-- The reported move ratio: the `val` of the first variable returned by
`calculate` (the one named "Move ratio"). -/
def moveRatioOf (vs : List VariableType) : ℚ := (vs.getD 0 default).val

/-- The state of one particle sweep: the positions and the accepted-move
counter `moves` (lines 137-146). -/
structure SweepState where
  r : List Vec3
  moves : ℕ
deriving DecidableEq, Repr

/-- The body of the atom loop (lines 139-146): propose
`ri = random_translate_vector ( dr_max/box, r[i] )`, wrap it by
`ri - np.rint(ri)`, delete particle `i` from the array, test with
`overlap_1`; on no overlap replace `r[i]` by `ri` and increment the
move counter, otherwise change nothing. -/
def atomStep (dr_max box : ℚ) (u : Vec3) (st : SweepState) (i : ℕ) : SweepState :=
  let ri := wrapV (random_translate_vector (dr_max / box) (st.r.getD i default) u)
  let rj := st.r.eraseIdx i
  if overlap_1 ri box rj then st
  else ⟨st.r.set i ri, st.moves + 1⟩

/-- One step (lines 137-146): sweep atoms `i = 0 .. n-1` in order,
starting from `moves = 0`; `us` supplies the random draw for each atom. -/
def sweep (dr_max box : ℚ) (us : List Vec3) (r : List Vec3) : SweepState :=
  (List.range r.length).foldl
    (fun st i => atomStep dr_max box (us.getD i default) st i) ⟨r, 0⟩

/-- The per-step move ratio `m_ratio = moves / n` (line 148), with
`n = r.length` the particle count. -/
def stepRatio (dr_max box : ℚ) (us : List Vec3) (r : List Vec3) : ℚ :=
  ((sweep dr_max box us r).moves : ℚ) / (r.length : ℚ)

/-- `nstep` consecutive steps of the step loop (line 135); `us k` is the
list of per-atom draws of step `k`. -/
def runSteps (dr_max box : ℚ) (us : ℕ → List Vec3) : ℕ → List Vec3 → List Vec3
  | 0, r => r
  | k + 1, r => runSteps dr_max box (fun j => us (j + 1)) k (sweep dr_max box (us 0) r).r

/-- The run parameters of lines 97-101 that the simulation loop uses. -/
structure Params where
  nblock : ℕ
  nstep : ℕ
  dr_max : ℚ
  eps_box : ℚ
  fast : Bool
deriving DecidableEq, Repr

/-- Python `str.zfill(w)` restricted to unsigned digit strings: left-pad
with the character zero up to width `w`. -/
def zfill (w : ℕ) (s : String) : String :=
  if s.length < w then String.mk (List.replicate (w - s.length) '0') ++ s else s

/-- The common checkpoint path stem `cnf_prefix = 'cnf.'` (line 73). -/
def cnfStem : String := "cnf."

/-- The output checkpoint tag `out_tag = 'out'` (line 75). -/
def out_tag : String := "out"

/-- The per-block checkpoint tag (line 154):
`str(blk).zfill(3) if blk < 1000 else 'sav'`. -/
def blockTag (blk : ℕ) : String :=
  if blk < 1000 then zfill 3 (Nat.repr blk) else "sav"

/-- The externally observable actions of the run that the claims talk
about: closing a block in the averaging collaborator (`blk_end`) and
writing a configuration checkpoint (`write_cnf_atoms`), in program
order. -/
inductive Event where
  | blkEnd (blk : ℕ)
  | checkpoint (name : String) (n : ℕ) (box : ℚ) (r : List Vec3)
deriving DecidableEq, Repr

/-- The outcome of a completed run: the final positions and the ordered
trace of block-closing and checkpoint events. -/
structure RunResult where
  r : List Vec3
  events : List Event
deriving DecidableEq, Repr

/-- The block loop (lines 131-155) over `rem` remaining blocks, the
current one numbered `blk`: run `nstep` steps, close the block, write
the checkpoint `cnf_prefix + sav_tag` with positions rescaled by `box`
(`r * box`), continue with the next block. `draws blk` supplies the
per-step random draws of block `blk`. -/
def runLoop (p : Params) (n : ℕ) (box : ℚ) (draws : ℕ → ℕ → List Vec3) :
    ℕ → ℕ → List Vec3 → List Vec3 × List Event
  | 0, _, r => (r, [])
  | rem + 1, blk, r =>
    let r2 := runSteps p.dr_max box (draws blk) p.nstep r
    let out := runLoop p n box draws rem (blk + 1) r2
    (out.1,
      Event.blkEnd blk ::
      Event.checkpoint (cnfStem ++ blockTag blk) n box (r2.map (smul box)) ::
      out.2)

/-- Load-time normalization of the input configuration (lines 121-122):
divide every position by `box`, then wrap every coordinate by
subtracting its rounded value. -/
def loadConfig (r_in : List Vec3) (box : ℚ) : List Vec3 :=
  r_in.map (fun v => wrapV (smul (1 / box) v))

/-- The whole simulation after parameters are set (lines 117-162): load
and wrap the configuration, check it for overlap (fatal if found,
line 125), run `nblock` blocks of `nstep` steps, re-check the final
configuration for overlap (fatal if found, line 160), and write the
final checkpoint `cnf_prefix + out_tag` with rescaled positions
(line 162). The two fatal assertion messages are the source's. -/
def runSim (p : Params) (n : ℕ) (box : ℚ) (r_in : List Vec3)
    (draws : ℕ → ℕ → List Vec3) : Except String RunResult :=
  let r0 := loadConfig r_in box
  if overlap box r0 then Except.error "Overlap in initial configuration"
  else
    let out := runLoop p n box draws p.nblock 1 r0
    if overlap box out.1 then Except.error "Overlap in final configuration"
    else Except.ok ⟨out.1,
      out.2 ++ [Event.checkpoint (cnfStem ++ out_tag) n box (out.1.map (smul box))]⟩

/-- A JSON value as `json.load` delivers it to the parameter check
(lines 82-101): the payload types that can appear are integers, reals,
booleans and strings; `sameType` below plays the role of Python
`type(val) == type(defaults[key])`. -/
inductive JVal where
  | jint (i : ℤ)
  | jreal (q : ℚ)
  | jbool (b : Bool)
  | jstr (s : String)
deriving DecidableEq, Repr

/-- Python `type(val) == type(dflt)` on JSON payloads: the two values
bear the same constructor. -/
def sameType : JVal → JVal → Bool
  | .jint _, .jint _ => true
  | .jreal _, .jreal _ => true
  | .jbool _, .jbool _ => true
  | .jstr _, .jstr _ => true
  | _, _ => false

/-- The `defaults` dictionary of line 89:
`{"nblock":10, "nstep":1000, "dr_max":0.15, "eps_box":0.005, "fast":True}`. -/
def defaultsList : List (String × JVal) :=
  [("nblock", .jint 10), ("nstep", .jint 1000), ("dr_max", .jreal (15/100)),
   ("eps_box", .jreal (1/200)), ("fast", .jbool true)]

/-- The validation loop of lines 90-94 over the input items in order: a
known key whose value has the wrong type raises the fatal assertion
`key + " has the wrong type"`; an unknown key only produces a warning.
On success the warned-about keys are returned in order. -/
def checkKeys : List (String × JVal) → Except String (List String)
  | [] => .ok []
  | kv :: rest =>
    match defaultsList.lookup kv.1 with
    | some d =>
      if sameType kv.2 d then checkKeys rest
      else .error (kv.1 ++ " has the wrong type")
    | none => (checkKeys rest).map (fun ws => kv.1 :: ws)

/-- `nml[key] if key in nml else defaults[key]` (lines 97-101). -/
def lookupJ (nml : List (String × JVal)) (key : String) (dflt : JVal) : JVal :=
  match nml.lookup key with
  | some v => v
  | none => dflt

/-- The five parameter assignments of lines 97-101, each the supplied
value when the key is present and the documented default otherwise,
returned in source order: nblock, nstep, dr_max, eps_box, fast. -/
def setParams (nml : List (String × JVal)) :
    JVal × JVal × JVal × JVal × JVal :=
  (lookupJ nml "nblock" (.jint 10),
   lookupJ nml "nstep" (.jint 1000),
   lookupJ nml "dr_max" (.jreal (15/100)),
   lookupJ nml "eps_box" (.jreal (1/200)),
   lookupJ nml "fast" (.jbool true))

/-- A coordinate interval predicate for the position invariant: every
coordinate of `v` lies in the closed interval [-1/2, 1/2]. -/
def inBox (v : Vec3) : Prop :=
  -(1/2) ≤ v.x ∧ v.x ≤ 1/2 ∧ -(1/2) ≤ v.y ∧ v.y ≤ 1/2 ∧ -(1/2) ≤ v.z ∧ v.z ≤ 1/2

instance (v : Vec3) : Decidable (inBox v) := by unfold inBox; infer_instance

/-- An arbitrary finite sequence of iterations of the atom-loop body,
each given by the atom index tried and the random draw used: the
positions reached after any prefix of any run are of this form (the
`moves` counter does not influence the positions, so it is restarted
at 0 for each iteration). -/
def atomMoves (dr_max box : ℚ) (ms : List (ℕ × Vec3)) (r : List Vec3) : List Vec3 :=
  ms.foldl (fun rr m => (atomStep dr_max box m.2 ⟨rr, 0⟩ m.1).r) r

/-- The configuration reached after `k` whole blocks of `nstep` steps
each, starting from configuration `r` at block number `blk` (the closed
form of the position component of `runLoop`). -/
def cfgFromBlock (p : Params) (box : ℚ) (draws : ℕ → ℕ → List Vec3) :
    ℕ → List Vec3 → ℕ → List Vec3
  | _, r, 0 => r
  | blk, r, k + 1 =>
    cfgFromBlock p box draws (blk + 1) (runSteps p.dr_max box (draws blk) p.nstep r) k

/-- The input configuration of the two-sphere scenario (real units,
box = 10): one sphere at the origin corner and one at the image of the
opposite corner shifted to the farthest interior point, half a box away
along every axis. Literal opposite corners of a periodic box are images
of one another (minimum-image distance 0), so the farthest-separated
reading is the one that lets the scenario run. -/
def cornerInput : List Vec3 := [⟨0, 0, 0⟩, ⟨5, 5, 5⟩]

/-- The two-sphere scenario configuration in box units after loading. -/
def cornerConfig : List Vec3 := [⟨0, 0, 0⟩, ⟨1/2, 1/2, 1/2⟩]

/-! ### Properties of the rounding and wrapping primitives -/

lemma rintZ_intCast (m : ℤ) : rintZ (m : ℚ) = m := by
  simp [rintZ, Int.fract_intCast]

lemma rintZ_neg (q : ℚ) : rintZ (-q) = -rintZ q := by
  rcases eq_or_ne (Int.fract q) 0 with h0 | h0
  · obtain ⟨m, rfl⟩ : ∃ m : ℤ, (m : ℚ) = q := ⟨⌊q⌋, by
      have := Int.self_sub_floor q
      rw [h0] at this
      linarith⟩
    rw [← Int.cast_neg, rintZ_intCast, rintZ_intCast]
  · have hfr : Int.fract (-q) = 1 - Int.fract q := Int.fract_neg h0
    have hfl : ⌊-q⌋ = -⌊q⌋ - 1 := by
      rw [Int.floor_neg]
      have hc : ⌈q⌉ = ⌊q⌋ + 1 := by
        rcases Int.fract_eq_zero_or_add_one_sub_ceil q with h | h
        · exact absurd h h0
        · have h2 := Int.self_sub_floor q
          have h3 : (⌈q⌉ : ℚ) = (⌊q⌋ : ℚ) + 1 := by rw [h] at h2; linarith
          exact_mod_cast h3
      omega
    have hpos : 0 < Int.fract q := lt_of_le_of_ne (Int.fract_nonneg q) (Ne.symm h0)
    have hlt : Int.fract q < 1 := Int.fract_lt_one q
    rcases lt_trichotomy (Int.fract q) (1/2) with h | h | h
    · have h1 : ¬ Int.fract (-q) < 1/2 := by rw [hfr]; push_neg; linarith
      have h2 : 1/2 < Int.fract (-q) := by rw [hfr]; linarith
      simp only [rintZ, if_pos h, if_neg h1, if_pos h2, hfl]
      ring
    · have h1 : ¬ Int.fract (-q) < 1/2 := by rw [hfr, h]; norm_num
      have h2 : ¬ (1/2 : ℚ) < Int.fract (-q) := by rw [hfr, h]; norm_num
      have h3 : ¬ Int.fract q < 1/2 := by rw [h]; exact lt_irrefl _
      have h4 : ¬ (1/2 : ℚ) < Int.fract q := by rw [h]; exact lt_irrefl _
      simp only [rintZ, if_neg h1, if_neg h2, if_neg h3, if_neg h4, hfl]
      rcases Int.even_or_odd ⌊q⌋ with he | ho
      · have hne : ¬ Even (-⌊q⌋ - 1) := by
          rcases he with ⟨k, hk⟩
          intro ⟨j, hj⟩
          omega
        rw [if_pos he, if_neg hne]
        ring
      · have hno : ¬ Even ⌊q⌋ := (Int.not_even_iff_odd).mpr ho
        have hye : Even (-⌊q⌋ - 1) := by
          rcases ho with ⟨k, hk⟩
          exact ⟨-k - 1, by omega⟩
        rw [if_neg hno, if_pos hye]
        ring
    · have h1 : Int.fract (-q) < 1/2 := by rw [hfr]; linarith
      have h3 : ¬ Int.fract q < 1/2 := by push_neg; linarith
      simp only [rintZ, if_pos h1, if_neg h3, if_pos h, hfl]
      ring

lemma wrap_neg (q : ℚ) : wrap (-q) = -wrap q := by
  simp only [wrap, rintZ_neg]
  push_cast
  ring

/-- The wrapped value always lies in the closed interval [-1/2, 1/2]
(both endpoints are attained: `wrap (1/2) = 1/2` and
`wrap (3/2) = -1/2`, by the round-half-to-even convention of
`np.rint`). -/
lemma wrap_mem (q : ℚ) : -(1/2) ≤ wrap q ∧ wrap q ≤ 1/2 := by
  have h2 := Int.self_sub_floor q
  have hpos := Int.fract_nonneg q
  have hlt := Int.fract_lt_one q
  unfold wrap rintZ
  rcases lt_trichotomy (Int.fract q) (1/2) with h | h | h
  · rw [if_pos h]
    constructor <;> linarith
  · rw [if_neg (by rw [h]; exact lt_irrefl _), if_neg (by rw [h]; exact lt_irrefl _)]
    rcases Int.even_or_odd ⌊q⌋ with he | ho
    · rw [if_pos he]
      constructor <;> linarith
    · rw [if_neg ((Int.not_even_iff_odd).mpr ho)]
      push_cast
      constructor <;> linarith
  · rw [if_neg (by push_neg; linarith), if_pos h]
    push_cast
    constructor <;> linarith

/-! ### Symmetry of the minimum-image metric -/

lemma squaredDistance_comm (a b : Vec3) : squaredDistance a b = squaredDistance b a := by
  have hx : a.x - b.x = -(b.x - a.x) := by ring
  have hy : a.y - b.y = -(b.y - a.y) := by ring
  have hz : a.z - b.z = -(b.z - a.z) := by ring
  simp only [squaredDistance, minimumImageDelta, wrapV, vsub, hx, hy, hz, wrap_neg]
  ring

lemma overlapPair_comm (box : ℚ) (a b : Vec3) :
    overlapPair box a b = overlapPair box b a := by
  simp only [overlapPair, squaredDistance_comm]

/-! ### The no-overlap invariant is preserved by accepted moves -/

lemma overlap_1_cons (ri p : Vec3) (box : ℚ) (l : List Vec3) :
    overlap_1 ri box (p :: l) = (overlapPair box ri p || overlap_1 ri box l) := by
  simp [overlap_1]

lemma overlap_1_eq_false (ri : Vec3) (box : ℚ) (rs : List Vec3) :
    overlap_1 ri box rs = false ↔ ∀ rj ∈ rs, overlapPair box ri rj = false := by
  simp [overlap_1]

/-- Replacing any element of a list that a probe does not collide with
cannot create a collision with the probe. -/
lemma overlap_1_set_false (p x : Vec3) (box : ℚ) (ps : List Vec3) (j : ℕ)
    (h1 : overlap_1 p box ps = false) (hx : overlapPair box p x = false) :
    overlap_1 p box (ps.set j x) = false := by
  rw [overlap_1_eq_false] at h1 ⊢
  intro rj hrj
  rcases List.mem_or_eq_of_mem_set hrj with h | rfl
  · exact h1 _ h
  · exact hx

/-- The key geometric step behind the regression invariant: if a
configuration has no overlapping pair and a trial position does not
collide with any particle other than `i`, then writing the trial
position into slot `i` leaves a configuration with no overlapping
pair. -/
lemma overlap_set_false (box : ℚ) (ri : Vec3) :
    ∀ (r : List Vec3) (i : ℕ), overlap box r = false →
      overlap_1 ri box (r.eraseIdx i) = false →
      overlap box (r.set i ri) = false := by
  intro r
  induction r with
  | nil => intro i _ _; simp [overlap]
  | cons p ps ih =>
    intro i h h1
    rw [overlap, Bool.or_eq_false_iff] at h
    match i with
    | 0 =>
      rw [List.eraseIdx_cons_zero] at h1
      rw [List.set_cons_zero, overlap, Bool.or_eq_false_iff]
      exact ⟨h1, h.2⟩
    | j + 1 =>
      rw [List.eraseIdx_cons_succ, overlap_1_cons, Bool.or_eq_false_iff] at h1
      rw [List.set_cons_succ, overlap, Bool.or_eq_false_iff]
      refine ⟨?_, ih j h.2 h1.2⟩
      exact overlap_1_set_false p ri box ps j h.1
        (by rw [overlapPair_comm]; exact h1.1)

/-- One iteration of the atom loop preserves the no-overlap invariant. -/
lemma atomStep_no_overlap (dr_max box : ℚ) (u : Vec3) (st : SweepState) (i : ℕ)
    (h : overlap box st.r = false) :
    overlap box (atomStep dr_max box u st i).r = false := by
  rw [atomStep]
  split
  · exact h
  next hov =>
    exact overlap_set_false box _ st.r i h (by simpa using hov)

lemma atomStep_length (dr_max box : ℚ) (u : Vec3) (st : SweepState) (i : ℕ) :
    (atomStep dr_max box u st i).r.length = st.r.length := by
  rw [atomStep]
  split
  · rfl
  · exact List.length_set st.r _ _

lemma atomStep_moves_le (dr_max box : ℚ) (u : Vec3) (st : SweepState) (i : ℕ) :
    (atomStep dr_max box u st i).moves ≤ st.moves + 1 := by
  rw [atomStep]
  split
  · exact Nat.le_succ _
  · exact Nat.le_refl _

lemma foldl_atomStep_no_overlap (dr_max box : ℚ) (us : List Vec3) :
    ∀ (l : List ℕ) (st : SweepState), overlap box st.r = false →
      overlap box ((l.foldl (fun s i => atomStep dr_max box (us.getD i default) s i) st).r)
        = false := by
  intro l
  induction l with
  | nil => intro st h; exact h
  | cons a l ih =>
    intro st h
    exact ih _ (atomStep_no_overlap dr_max box _ st a h)

lemma foldl_atomStep_moves (dr_max box : ℚ) (us : List Vec3) :
    ∀ (l : List ℕ) (st : SweepState),
      (l.foldl (fun s i => atomStep dr_max box (us.getD i default) s i) st).moves
        ≤ st.moves + l.length := by
  intro l
  induction l with
  | nil => intro st; simp
  | cons a l ih =>
    intro st
    calc (l.foldl _ (atomStep dr_max box (us.getD a default) st a)).moves
        ≤ (atomStep dr_max box (us.getD a default) st a).moves + l.length := ih _
      _ ≤ (st.moves + 1) + l.length :=
          Nat.add_le_add_right (atomStep_moves_le dr_max box _ st a) _
      _ = st.moves + (a :: l).length := by simp [Nat.add_comm, Nat.add_assoc, Nat.add_left_comm]

lemma sweep_no_overlap (dr_max box : ℚ) (us : List Vec3) (r : List Vec3)
    (h : overlap box r = false) :
    overlap box (sweep dr_max box us r).r = false :=
  foldl_atomStep_no_overlap dr_max box us (List.range r.length) ⟨r, 0⟩ h

lemma sweep_moves_le (dr_max box : ℚ) (us : List Vec3) (r : List Vec3) :
    (sweep dr_max box us r).moves ≤ r.length := by
  have h := foldl_atomStep_moves dr_max box us (List.range r.length) ⟨r, 0⟩
  simpa only [List.length_range, Nat.zero_add] using h

lemma runSteps_no_overlap (dr_max box : ℚ) :
    ∀ (k : ℕ) (us : ℕ → List Vec3) (r : List Vec3), overlap box r = false →
      overlap box (runSteps dr_max box us k r) = false := by
  intro k
  induction k with
  | zero => intro us r h; exact h
  | succ k ih =>
    intro us r h
    exact ih _ _ (sweep_no_overlap dr_max box (us 0) r h)

lemma runLoop_no_overlap (p : Params) (n : ℕ) (box : ℚ) (draws : ℕ → ℕ → List Vec3) :
    ∀ (rem blk : ℕ) (r : List Vec3), overlap box r = false →
      overlap box (runLoop p n box draws rem blk r).1 = false := by
  intro rem
  induction rem with
  | zero => intro blk r h; exact h
  | succ rem ih =>
    intro blk r h
    exact ih _ _ (runSteps_no_overlap p.dr_max box p.nstep (draws blk) r h)

lemma atomMoves_no_overlap (dr_max box : ℚ) :
    ∀ (ms : List (ℕ × Vec3)) (r : List Vec3), overlap box r = false →
      overlap box (atomMoves dr_max box ms r) = false := by
  intro ms
  induction ms with
  | nil => intro r h; exact h
  | cons m ms ih =>
    intro r h
    exact ih _ (atomStep_no_overlap dr_max box m.2 ⟨r, 0⟩ m.1 h)

/-! ### The claims -/

/-- C1: at every call to `calculate`, at any point of the run and whether
or not a report label is supplied, the reported pressure equals
`n/box³ + vir/box³` where `vir = n_overlap(box/(1+eps_box), r)/(3·eps_box)`
is the overlap count of the current configuration under a box contracted
by the factor `1/(1+eps_box)`, divided by `3·eps_box`. -/
theorem calculate_pressure_formula (st : CalcState) (s : Option String) :
    pressureOf (calculate st s) =
      (st.n : ℚ) / st.box ^ 3 +
        ((n_overlap (st.box / (1 + st.eps_box)) st.r : ℚ) / (3 * st.eps_box)) / st.box ^ 3 := by
  cases s <;> rfl

/-- C2: one iteration of the atom loop for particle `i`, with `ri` the
wrapped trial position: when `overlap_1` reports no overlap of `ri`
against all other particles, `positions[i]` is replaced by `ri` and the
accepted-move counter increments by one; when `overlap_1` reports an
overlap, every particle position and the counter are left unchanged. -/
theorem atomStep_accept_reject (dr_max box : ℚ) (u : Vec3) (st : SweepState) (i : ℕ)
    (ri : Vec3)
    (hri : ri = wrapV (random_translate_vector (dr_max / box) (st.r.getD i default) u)) :
    (overlap_1 ri box (st.r.eraseIdx i) = false →
      atomStep dr_max box u st i = ⟨st.r.set i ri, st.moves + 1⟩) ∧
    (overlap_1 ri box (st.r.eraseIdx i) = true →
      atomStep dr_max box u st i = st) := by
  subst hri
  constructor
  · intro h
    simp only [atomStep, h, Bool.false_eq_true, if_false]
  · intro h
    simp only [atomStep, h, if_true]

/-- C4: an input configuration with a pre-existing overlap makes the run
abort fatally with the diagnostic of line 125 before any Monte Carlo
step executes; the error outcome carries no events, so no checkpoint is
written and the stored configuration is untouched. -/
theorem initial_overlap_fatal (p : Params) (n : ℕ) (box : ℚ) (r_in : List Vec3)
    (draws : ℕ → ℕ → List Vec3)
    (h : overlap box (loadConfig r_in box) = true) :
    runSim p n box r_in draws = Except.error "Overlap in initial configuration" := by
  simp only [runSim, h, if_true]

/-- C9: the per-step move ratio is the accepted-move count of the sweep
divided by the particle count `n = r.length`, hence lies in [0, 1]; and
`calculate` invoked with a report label reports the sentinel move
ratio 0. -/
theorem move_ratio_bounds (dr_max box : ℚ) (us : List Vec3) (r : List Vec3)
    (st : CalcState) (s : String) :
    stepRatio dr_max box us r = ((sweep dr_max box us r).moves : ℚ) / (r.length : ℚ) ∧
    0 ≤ stepRatio dr_max box us r ∧ stepRatio dr_max box us r ≤ 1 ∧
    moveRatioOf (calculate st (some s)) = 0 := by
  refine ⟨rfl, div_nonneg (Nat.cast_nonneg _) (Nat.cast_nonneg _), ?_, rfl⟩
  rcases Nat.eq_zero_or_pos r.length with hn | hn
  · rw [stepRatio, hn]
    norm_num
  · rw [stepRatio, div_le_one (by exact_mod_cast hn)]
    exact_mod_cast sweep_moves_le dr_max box us r

/-- C10: whenever `eps_box > 0` (and `box > 0`, as the data model
requires of every configuration in a run), the virial correction is a
nonnegative count divided by positive quantities, so the reported
pressure is at least the ideal-gas term `n/box³`. -/
theorem pressure_ge_ideal (st : CalcState) (s : Option String)
    (heps : 0 < st.eps_box) (hbox : 0 < st.box) :
    (st.n : ℚ) / st.box ^ 3 ≤ pressureOf (calculate st s) := by
  have hform : pressureOf (calculate st s) =
      (st.n : ℚ) / st.box ^ 3 +
        ((n_overlap (st.box / (1 + st.eps_box)) st.r : ℚ) / (3 * st.eps_box)) / st.box ^ 3 := by
    cases s <;> rfl
  have hvir : 0 ≤ ((n_overlap (st.box / (1 + st.eps_box)) st.r : ℚ) / (3 * st.eps_box)) / st.box ^ 3 := by
    apply div_nonneg
    · exact div_nonneg (Nat.cast_nonneg _) (by linarith)
    · positivity
  linarith [hform, hvir]

/-- Witness for C2: in the two-sphere scenario configuration a zero
displacement of particle 0 passes the overlap test, so the accept branch
fires and the counter increments. -/
theorem atomStep_accept_reject_witness :
    atomStep 0 10 ⟨0, 0, 0⟩ ⟨cornerConfig, 0⟩ 0 = ⟨cornerConfig.set 0 ⟨0, 0, 0⟩, 0 + 1⟩ :=
  (atomStep_accept_reject 0 10 ⟨0, 0, 0⟩ ⟨cornerConfig, 0⟩ 0 ⟨0, 0, 0⟩
    (by
      simp only [cornerConfig, List.getD_cons_zero, random_translate_vector, wrapV, wrap,
        rintZ, Vec3.mk.injEq]
      norm_num [Int.fract])).1
    (by
      simp only [cornerConfig, List.getD_cons_zero, List.eraseIdx_cons_zero, overlap_1,
        overlapPair, squaredDistance, minimumImageDelta, wrapV, wrap, rintZ, vsub,
        List.any_cons, List.any_nil]
      norm_num [Int.fract])

/-- Witness for C4: two coincident spheres overlap, so the run aborts
with the initial-configuration diagnostic. -/
theorem initial_overlap_fatal_witness :
    runSim ⟨10, 1000, 15/100, 1/200, true⟩ 2 10 [⟨0, 0, 0⟩, ⟨0, 0, 0⟩] (fun _ _ => []) =
      Except.error "Overlap in initial configuration" :=
  initial_overlap_fatal ⟨10, 1000, 15/100, 1/200, true⟩ 2 10 [⟨0, 0, 0⟩, ⟨0, 0, 0⟩]
    (fun _ _ => [])
    (by
      simp only [loadConfig, smul, overlap, overlap_1, overlapPair, squaredDistance,
        minimumImageDelta, wrapV, wrap, rintZ, vsub, List.map_cons, List.map_nil,
        List.any_cons, List.any_nil]
      norm_num [Int.fract])

/-- Witness for C10: the pressure of the two-sphere scenario dominates
its ideal-gas term. -/
theorem pressure_ge_ideal_witness :
    ((2 : ℕ) : ℚ) / (10 : ℚ) ^ 3 ≤ pressureOf (calculate ⟨2, 10, 1/200, cornerConfig, 0⟩ none) :=
  pressure_ge_ideal ⟨2, 10, 1/200, cornerConfig, 0⟩ none (by norm_num) (by norm_num)

/-- C3: from an initial configuration that passes the whole-configuration
overlap check, the configuration reached after any finite sequence of
atom-loop iterations (in particular after every accepted move of the
run) still contains no overlapping pair, and the run completes: the
final whole-configuration check of line 160 cannot fire, so `runSim`
returns a successful result. -/
theorem no_overlap_invariant (p : Params) (n : ℕ) (box : ℚ) (r_in : List Vec3)
    (draws : ℕ → ℕ → List Vec3)
    (h : overlap box (loadConfig r_in box) = false) :
    (∀ ms : List (ℕ × Vec3),
        overlap box (atomMoves p.dr_max box ms (loadConfig r_in box)) = false) ∧
    ∃ res : RunResult, runSim p n box r_in draws = Except.ok res := by
  constructor
  · intro ms
    exact atomMoves_no_overlap p.dr_max box ms _ h
  · have hfin : overlap box (runLoop p n box draws p.nblock 1 (loadConfig r_in box)).1 = false :=
      runLoop_no_overlap p n box draws p.nblock 1 _ h
    refine ⟨⟨(runLoop p n box draws p.nblock 1 (loadConfig r_in box)).1,
      (runLoop p n box draws p.nblock 1 (loadConfig r_in box)).2 ++
        [Event.checkpoint (cnfStem ++ out_tag) n box
          ((runLoop p n box draws p.nblock 1 (loadConfig r_in box)).1.map (smul box))]⟩, ?_⟩
    rw [runSim]
    simp only [h, hfin, Bool.false_eq_true, if_false]

/-- Witness for C3: the two-sphere scenario run completes successfully. -/
theorem no_overlap_invariant_witness :
    ∃ res : RunResult, runSim ⟨1, 1, 0, 1/200, true⟩ 2 10 cornerInput (fun _ _ => []) =
      Except.ok res :=
  (no_overlap_invariant ⟨1, 1, 0, 1/200, true⟩ 2 10 cornerInput (fun _ _ => [])
    (by
      simp only [cornerInput, loadConfig, smul, overlap, overlap_1, overlapPair,
        squaredDistance, minimumImageDelta, wrapV, wrap, rintZ, vsub, List.map_cons,
        List.map_nil, List.any_cons, List.any_nil]
      norm_num [Int.fract])).2

lemma inBox_wrapV (v : Vec3) : inBox (wrapV v) :=
  ⟨(wrap_mem v.x).1, (wrap_mem v.x).2, (wrap_mem v.y).1, (wrap_mem v.y).2,
   (wrap_mem v.z).1, (wrap_mem v.z).2⟩

/-- C6 fails as stated: an input coordinate lying exactly on the
half-box boundary (here the second particle of the two-sphere scenario,
at real coordinate 5 in a box of length 10) is wrapped to exactly 1/2,
because `np.rint` rounds the tie 1/2 to the even integer 0; so the
stored coordinate does not lie in the half-open interval [-1/2, 1/2). -/
theorem load_coord_at_half :
    ((loadConfig cornerInput 10).getD 1 default).x = 1/2 ∧
    ¬ ((loadConfig cornerInput 10).getD 1 default).x < 1/2 := by
  have h : ((loadConfig cornerInput 10).getD 1 default).x = 1/2 := by
    simp only [cornerInput, loadConfig, smul, wrapV, wrap, rintZ, List.map_cons, List.map_nil,
      List.getD_cons_zero, List.getD_cons_succ]
    norm_num [Int.fract]
  exact ⟨h, by rw [h]; exact lt_irrefl _⟩

/-- C6 amended: every coordinate of every stored position lies in the
CLOSED interval [-1/2, 1/2] — both after the initial load and after any
iteration of the atom loop (an accepted trial position is wrapped the
same way before being stored). The right endpoint is attained, so the
half-open interval of the original claim is impossible. -/
theorem coords_in_closed_interval :
    (∀ (r_in : List Vec3) (box : ℚ), ∀ v ∈ loadConfig r_in box, inBox v) ∧
    (∀ (dr_max box : ℚ) (u : Vec3) (st : SweepState) (i : ℕ),
      (∀ v ∈ st.r, inBox v) → ∀ v ∈ (atomStep dr_max box u st i).r, inBox v) := by
  constructor
  · intro r_in box v hv
    rw [loadConfig, List.mem_map] at hv
    obtain ⟨w, _, rfl⟩ := hv
    exact inBox_wrapV _
  · intro dr_max box u st i hst v hv
    rw [atomStep] at hv
    split at hv
    · exact hst v hv
    · rcases List.mem_or_eq_of_mem_set hv with h | rfl
      · exact hst v h
      · exact inBox_wrapV _

/-- Witness for the amended C6: the boundary coordinate 1/2 produced by
the load of the two-sphere scenario does lie in the closed interval. -/
theorem coords_in_closed_interval_witness : inBox ⟨1/2, 1/2, 1/2⟩ :=
  coords_in_closed_interval.1 cornerInput 10 ⟨1/2, 1/2, 1/2⟩
    (by
      simp only [cornerInput, loadConfig, smul, wrapV, wrap, rintZ, List.map_cons,
        List.map_nil, List.mem_cons, Vec3.mk.injEq]
      norm_num [Int.fract])

/-! ### The two-sphere scenario (C5) -/

lemma load_cornerInput : loadConfig cornerInput 10 = cornerConfig := by
  simp only [cornerInput, cornerConfig, loadConfig, smul, wrapV, wrap, rintZ,
    List.map_cons, List.map_nil, List.cons.injEq, Vec3.mk.injEq]
  norm_num [Int.fract]

lemma random_translate_vector_zero (pos u : Vec3) :
    random_translate_vector 0 pos u = pos := by
  simp [random_translate_vector]

lemma atomStep_corner0 (u : Vec3) (m : ℕ) :
    atomStep 0 10 u ⟨cornerConfig, m⟩ 0 = ⟨cornerConfig, m + 1⟩ := by
  simp only [atomStep, cornerConfig, zero_div, random_translate_vector_zero,
    List.getD_cons_zero, List.eraseIdx_cons_zero, List.set_cons_zero, overlap_1,
    overlapPair, squaredDistance, minimumImageDelta, wrapV, wrap, rintZ, vsub,
    List.any_cons, List.any_nil]
  norm_num [Int.fract]

lemma atomStep_corner1 (u : Vec3) (m : ℕ) :
    atomStep 0 10 u ⟨cornerConfig, m⟩ 1 = ⟨cornerConfig, m + 1⟩ := by
  simp only [atomStep, cornerConfig, zero_div, random_translate_vector_zero,
    List.getD_cons_zero, List.getD_cons_succ, List.eraseIdx_cons_zero,
    List.eraseIdx_cons_succ, List.eraseIdx_nil, List.set_cons_zero, List.set_cons_succ,
    overlap_1, overlapPair, squaredDistance, minimumImageDelta, wrapV, wrap, rintZ, vsub,
    List.any_cons, List.any_nil]
  norm_num [Int.fract]

lemma sweep_corner (us : List Vec3) : sweep 0 10 us cornerConfig = ⟨cornerConfig, 2⟩ := by
  have h2 : List.range cornerConfig.length = [0, 1] := rfl
  rw [sweep, h2, List.foldl_cons, List.foldl_cons, List.foldl_nil,
    atomStep_corner0 (us.getD 0 default) 0, atomStep_corner1 (us.getD 1 default) 1]

lemma runSteps_corner : ∀ (k : ℕ) (uss : ℕ → List Vec3),
    runSteps 0 10 uss k cornerConfig = cornerConfig := by
  intro k
  induction k with
  | zero => intro uss; rfl
  | succ k ih =>
    intro uss
    rw [runSteps, sweep_corner]
    exact ih _

lemma stepRatio_corner (us : List Vec3) : stepRatio 0 10 us cornerConfig = 1 := by
  rw [stepRatio, sweep_corner]
  norm_num [cornerConfig]

lemma pressure_corner (m : ℚ) (s : Option String) :
    pressureOf (calculate ⟨2, 10, 1/200, cornerConfig, m⟩ s) = 2/1000 := by
  have hcount : n_overlap ((10 : ℚ) / (1 + 1/200)) cornerConfig = 0 := by
    simp only [cornerConfig, n_overlap, List.countP_cons, List.countP_nil, overlapPair,
      squaredDistance, minimumImageDelta, wrapV, wrap, rintZ, vsub]
    norm_num [Int.fract]
  have hform : pressureOf (calculate ⟨2, 10, 1/200, cornerConfig, m⟩ s) =
      ((2 : ℕ) : ℚ) / (10 : ℚ) ^ 3 +
        ((n_overlap ((10 : ℚ) / (1 + 1/200)) cornerConfig : ℚ) / (3 * (1/200))) / (10 : ℚ) ^ 3 := by
    cases s <;> rfl
  rw [hform, hcount]
  norm_num

/-- C5 fails as stated: in the two-sphere scenario with `dr_max = 0`
the per-step move ratio is not 0 — a zero displacement leaves the
particle where it was, the overlap test against the distant partner
passes, and the move is counted as accepted. -/
theorem corner_ratio_not_zero :
    ¬ stepRatio 0 10 [⟨0, 0, 0⟩, ⟨0, 0, 0⟩] (loadConfig cornerInput 10) = 0 := by
  rw [load_cornerInput, stepRatio_corner]
  norm_num

/-- C5 amended: in the scenario `n = 2`, `box = 10`, the two spheres
maximally separated (the opposite-corner configuration read modulo the
periodic boundary), `dr_max = 0`: the configuration is unchanged after
any number of steps, every step's move ratio equals 1 (each
zero-displacement trial is accepted and counted), and the reported
pressure equals the ideal-gas term exactly, `2/1000`. -/
theorem corner_scenario_amended (k : ℕ) (uss : ℕ → List Vec3) (us : List Vec3) :
    runSteps 0 10 uss k (loadConfig cornerInput 10) = loadConfig cornerInput 10 ∧
    stepRatio 0 10 us (loadConfig cornerInput 10) = 1 ∧
    pressureOf (calculate ⟨2, 10, 1/200, loadConfig cornerInput 10,
      stepRatio 0 10 us (loadConfig cornerInput 10)⟩ none) = 2/1000 := by
  rw [load_cornerInput]
  exact ⟨runSteps_corner k uss, stepRatio_corner us, pressure_corner _ none⟩

/-! ### Parameter validation (C7) -/

lemma checkKeys_error_of_mismatch :
    ∀ nml : List (String × JVal),
      (∃ kv ∈ nml, ∃ d, defaultsList.lookup kv.1 = some d ∧ sameType kv.2 d = false) →
      ∃ msg, checkKeys nml = Except.error msg := by
  intro nml
  induction nml with
  | nil =>
    rintro ⟨kv, hmem, _⟩
    cases hmem
  | cons kv rest ih =>
    rintro ⟨kv', hmem, d, hd, hst⟩
    rcases List.mem_cons.mp hmem with rfl | hmem'
    · refine ⟨kv'.1 ++ " has the wrong type", ?_⟩
      rw [checkKeys, hd]
      simp [hst]
    · obtain ⟨msg, herr⟩ := ih ⟨kv', hmem', d, hd, hst⟩
      rcases hl : defaultsList.lookup kv.1 with _ | d'
      · refine ⟨msg, ?_⟩
        rw [checkKeys, hl, herr]
        rfl
      · rw [checkKeys, hl]
        rcases hst' : sameType kv.2 d'
        · exact ⟨kv.1 ++ " has the wrong type", by simp [hst']⟩
        · exact ⟨msg, by simp [hst', herr]⟩

lemma checkKeys_ok_of_all_match :
    ∀ nml : List (String × JVal),
      (∀ kv ∈ nml, ∀ d, defaultsList.lookup kv.1 = some d → sameType kv.2 d = true) →
      checkKeys nml =
        Except.ok ((nml.filter (fun kv => (defaultsList.lookup kv.1).isNone)).map Prod.fst) := by
  intro nml
  induction nml with
  | nil => intro _; rfl
  | cons kv rest ih =>
    intro h
    have hrest := ih (fun kv' h' d hd => h kv' (List.mem_cons_of_mem _ h') d hd)
    rcases hl : defaultsList.lookup kv.1 with _ | d
    · rw [checkKeys, hl, hrest, List.filter_cons]
      simp [hl, Except.map]
    · have hst := h kv (List.mem_cons_self _ _) d hl
      rw [checkKeys, hl, hrest, List.filter_cons]
      simp [hl, hst]

lemma lookupJ_none (nml : List (String × JVal)) (key : String) (dflt : JVal)
    (h : nml.lookup key = none) : lookupJ nml key dflt = dflt := by
  rw [lookupJ, h]

/-- C7: the parameter stage of lines 89-101. A known key
(`nblock`, `nstep`, `dr_max`, `eps_box`, `fast`) whose value has the
wrong type makes the validation loop fail fatally; if every known key
has the right type, validation succeeds and reports exactly the unknown
keys as warnings (the run proceeds); and each key absent from the input
takes its documented default value (10, 1000, 0.15, 0.005, true). -/
theorem param_validation (nml : List (String × JVal)) :
    ((∃ kv ∈ nml, ∃ d, defaultsList.lookup kv.1 = some d ∧ sameType kv.2 d = false) →
      ∃ msg, checkKeys nml = Except.error msg) ∧
    ((∀ kv ∈ nml, ∀ d, defaultsList.lookup kv.1 = some d → sameType kv.2 d = true) →
      checkKeys nml =
        Except.ok ((nml.filter (fun kv => (defaultsList.lookup kv.1).isNone)).map Prod.fst)) ∧
    (nml.lookup "nblock" = none → (setParams nml).1 = .jint 10) ∧
    (nml.lookup "nstep" = none → (setParams nml).2.1 = .jint 1000) ∧
    (nml.lookup "dr_max" = none → (setParams nml).2.2.1 = .jreal (15/100)) ∧
    (nml.lookup "eps_box" = none → (setParams nml).2.2.2.1 = .jreal (1/200)) ∧
    (nml.lookup "fast" = none → (setParams nml).2.2.2.2 = .jbool true) := by
  refine ⟨checkKeys_error_of_mismatch nml, checkKeys_ok_of_all_match nml, ?_, ?_, ?_, ?_, ?_⟩ <;>
    intro h
  · exact lookupJ_none nml "nblock" _ h
  · exact lookupJ_none nml "nstep" _ h
  · exact lookupJ_none nml "dr_max" _ h
  · exact lookupJ_none nml "eps_box" _ h
  · exact lookupJ_none nml "fast" _ h

/-- Witness for C7: an input giving the real-valued key `dr_max` an
integer value is rejected by the validation loop. -/
theorem param_validation_witness :
    ∃ msg, checkKeys [("dr_max", JVal.jint 3)] = Except.error msg :=
  (param_validation [("dr_max", JVal.jint 3)]).1
    ⟨("dr_max", JVal.jint 3), List.mem_cons_self _ _, JVal.jreal (15/100), rfl, rfl⟩

/-! ### The checkpoint trace (C8) -/

lemma cfgFromBlock_succ (p : Params) (box : ℚ) (draws : ℕ → ℕ → List Vec3)
    (blk : ℕ) (r : List Vec3) (k : ℕ) :
    cfgFromBlock p box draws blk r (k + 1) =
      cfgFromBlock p box draws (blk + 1) (runSteps p.dr_max box (draws blk) p.nstep r) k :=
  rfl

lemma cfgFromBlock_zero (p : Params) (box : ℚ) (draws : ℕ → ℕ → List Vec3)
    (blk : ℕ) (r : List Vec3) : cfgFromBlock p box draws blk r 0 = r :=
  rfl

/-- Closed form of `runLoop`: final positions and the event trace, one
`blk_end` followed by one block checkpoint per block, in block order. -/
lemma runLoop_eq (p : Params) (n : ℕ) (box : ℚ) (draws : ℕ → ℕ → List Vec3) :
    ∀ (rem blk : ℕ) (r : List Vec3),
      runLoop p n box draws rem blk r =
        (cfgFromBlock p box draws blk r rem,
         (List.range rem).flatMap (fun t =>
           [Event.blkEnd (blk + t),
            Event.checkpoint (cnfStem ++ blockTag (blk + t)) n box
              ((cfgFromBlock p box draws blk r (t + 1)).map (smul box))])) := by
  intro rem
  induction rem with
  | zero => intro blk r; rfl
  | succ rem ih =>
    intro blk r
    rw [runLoop, ih (blk + 1) (runSteps p.dr_max box (draws blk) p.nstep r)]
    rw [List.range_succ_eq_map, List.flatMap_cons, List.flatMap_map]
    simp only [List.cons_append, List.nil_append, Nat.succ_eq_add_one]
    simp only [cfgFromBlock_succ, cfgFromBlock_zero]
    simp only [Nat.add_assoc, Nat.one_add, Nat.add_zero]

lemma zfill_length (w : ℕ) (s : String) : (zfill w s).length = max w s.length := by
  rw [zfill]
  split
  next h =>
    rw [String.length_append]
    have hm : (String.mk (List.replicate (w - s.length) '0')).length = w - s.length :=
      List.length_replicate _ _
    omega
  next h =>
    omega

set_option maxRecDepth 10000 in
lemma repr_length_le (blk : ℕ) (h : blk < 1000) : (Nat.repr blk).length ≤ 3 := by
  have hall : ∀ b < 1000, (Nat.repr b).length ≤ 3 := by decide
  exact hall blk h

lemma blockTag_spec (blk : ℕ) (h1 : blk < 1000) :
    (blockTag blk).length = 3 ∧ blockTag blk = zfill 3 (Nat.repr blk) := by
  rw [blockTag, if_pos h1]
  refine ⟨?_, rfl⟩
  rw [zfill_length]
  have := repr_length_le blk h1
  omega

/-- C8: a successful run emits, for each block `blk = 1 .. nblock` in
order, the block-closing event followed immediately by a checkpoint
named with the common stem and the per-block tag, holding the positions
of that moment rescaled to real units (`r * box`); and one final
checkpoint with the output tag at run end. The per-block tag is the
block index zero-padded to width 3 when the index is below 1000 and the
literal fallback tag otherwise. -/
theorem block_checkpoints (p : Params) (n : ℕ) (box : ℚ) (r_in : List Vec3)
    (draws : ℕ → ℕ → List Vec3) (res : RunResult)
    (h : runSim p n box r_in draws = Except.ok res) :
    (res.events =
      (List.range p.nblock).flatMap (fun t =>
        [Event.blkEnd (1 + t),
         Event.checkpoint (cnfStem ++ blockTag (1 + t)) n box
           ((cfgFromBlock p box draws 1 (loadConfig r_in box) (t + 1)).map (smul box))]) ++
      [Event.checkpoint (cnfStem ++ out_tag) n box
        ((cfgFromBlock p box draws 1 (loadConfig r_in box) p.nblock).map (smul box))]) ∧
    (∀ blk, blk < 1000 → (blockTag blk).length = 3 ∧ blockTag blk = zfill 3 (Nat.repr blk)) ∧
    (∀ blk, 1000 ≤ blk → blockTag blk = "sav") := by
  refine ⟨?_, fun blk h1 => blockTag_spec blk h1,
    fun blk h1 => by rw [blockTag, if_neg (by omega)]⟩
  simp only [runSim] at h
  split at h
  · cases h
  · split at h
    · cases h
    · obtain rfl := (Except.ok.inj h).symm
      rw [runLoop_eq p n box draws p.nblock 1 (loadConfig r_in box)]

/-- Witness for C8: the tag of block 7 has width 3 and block 1000 falls
back to the literal tag, exercised through a complete one-block run. -/
theorem block_checkpoints_witness :
    (blockTag 7).length = 3 ∧ blockTag 1000 = "sav" := by
  have h : runSim ⟨1, 0, 0, 1/200, true⟩ 1 10 [⟨0, 0, 0⟩] (fun _ _ => []) =
      Except.ok ⟨[⟨0, 0, 0⟩], [Event.blkEnd 1,
        Event.checkpoint "cnf.001" 1 10 [⟨0, 0, 0⟩],
        Event.checkpoint "cnf.out" 1 10 [⟨0, 0, 0⟩]]⟩ := by
    simp only [runSim, runLoop, runSteps, loadConfig, overlap, overlap_1, overlapPair,
      squaredDistance, minimumImageDelta, wrapV, wrap, rintZ, vsub, smul, cnfStem, out_tag,
      blockTag, zfill, List.map_cons, List.map_nil, List.any_cons, List.any_nil,
      List.nil_append, List.cons_append]
    norm_num [Int.fract]
    decide
  exact ⟨((block_checkpoints ⟨1, 0, 0, 1/200, true⟩ 1 10 [⟨0, 0, 0⟩] (fun _ _ => []) _ h).2.1
      7 (by omega)).1,
    (block_checkpoints ⟨1, 0, 0, 1/200, true⟩ 1 10 [⟨0, 0, 0⟩] (fun _ _ => []) _ h).2.2
      1000 (by omega)⟩

end MCNvtHs
